import Mathlib

/-!
Shallow embedding of the two Python tools of the repository
(src/loadtest/loadtest.py and src/loadtest/img2xls.py).

Randomness, wall-clock time and the HTTP transport are modelled as
oracles: a random call random.randint(lo, hi) draws the next value of a
natural-number stream and reduces it into the requested range by a
modulus, so every value that Python could draw is reachable and every
drawn value obeys the documented range contract; time.time() readings
come from a stream of integers indexed by the order of the calls (no
claim below depends on sub-second granularity, so whole-number readings
keep every statement while letting the kernel evaluate runs); each
requests.post is answered by a stream of transport results indexed by
the number of posts already made.  The while loop of the load generator
is run on explicit fuel (a bound on the number of iterations); fuel
exhaustion is reported as a distinct outcome and never identified with a
normal return.
-/

namespace Loadtest

/-- Oracle for the random module: an infinite stream of naturals and a
position.  Each call to the random module consumes one stream value. -/
structure RNG where
  stream : Nat → Nat
  pos : Nat

/-- Draw the next raw value of the random stream. -/
def RNG.next (g : RNG) : Nat × RNG :=
  (g.stream g.pos, ⟨g.stream, g.pos + 1⟩)

/-- random.randint(lo, hi) for a range that is known to be nonempty:
the drawn stream value is reduced into [lo, hi] by a modulus. -/
def randintP (lo hi : Int) (g : RNG) : Int × RNG :=
  let (v, g2) := g.next
  (lo + (v : Int) % (hi - lo + 1), g2)

/-- random.randint(lo, hi): Python raises ValueError when lo > hi; this
is the variant used where the bounds come from the caller. -/
def randint (lo hi : Int) (g : RNG) : Except String (Int × RNG) :=
  if lo ≤ hi then .ok (randintP lo hi g) else .error "ValueError: empty range"

/-- string.ascii_letters of the Python standard library. -/
def ascii_letters : List Char :=
  "abcdefghijklmnopqrstuvwxyzABCDEFGHIJKLMNOPQRSTUVWXYZ".data

/-- string.digits of the Python standard library. -/
def string_digits : List Char := "0123456789".data

/-- string.ascii_uppercase of the Python standard library. -/
def ascii_uppercase : List Char := "ABCDEFGHIJKLMNOPQRSTUVWXYZ".data

/-- random.choices(pop, k=k): k independent draws from pop. -/
def randChoices (pop : List Char) (g : RNG) : Nat → List Char × RNG
  | 0 => ([], g)
  | k + 1 =>
    let (v, g1) := g.next
    let c := pop.getD (v % pop.length) 'a'
    let (cs, g2) := randChoices pop g1 k
    (c :: cs, g2)

/-- The text branch of generate_random_value: a random length in
[5, 15], then that many draws from ascii_letters + digits. -/
def textValue (g : RNG) : String × RNG :=
  let (len, g1) := randintP 5 15 g
  let (cs, g2) := randChoices (ascii_letters ++ string_digits) g1 len.toNat
  (String.mk cs, g2)

/-- The number branch of generate_random_value:
str(random.randint(1, 10000)). -/
def numberValue (g : RNG) : String × RNG :=
  let (n, g1) := randintP 1 10000 g
  (toString n, g1)

/-- The formula branch of generate_random_value: an equals sign, a
random.choice over string.ascii_uppercase and str of a
random.randint(1, 10000). -/
def formulaValue (g : RNG) : String × RNG :=
  let (lv, g1) := g.next
  let letter := ascii_uppercase.getD (lv % 26) 'A'
  let (n, g2) := randintP 1 10000 g1
  (String.mk ['='] ++ String.mk [letter] ++ toString n, g2)

/-- generate_random_value of loadtest.py: draws a choice among
text, number and formula (list order of the source), then runs the
chosen branch.  random.choice(l) is modelled as l indexed by the next
stream value modulo the length of l. -/
def generate_random_value (g : RNG) : String × RNG :=
  let (cv, g0) := g.next
  match cv % 3 with
  | 0 => textValue g0
  | 1 => numberValue g0
  | _ => formulaValue g0

/-- Payload dict built by make_cell in both tools. -/
structure Cell where
  id : Int
  raw_value : String
  background : Int
deriving DecidableEq

def make_cell (ide : Int) (raw_value : String) (background : Int) : Cell :=
  ⟨ide, raw_value, background⟩

/-- One per-attempt record of the responses list: the Python dict has
either the keys status_code and body, or only the key error; a missing
key is the Option value none. -/
structure Outcome where
  status_code : Option Int
  body : Option String
  error : Option String
deriving DecidableEq

/-- Result of one requests.post call: a completed HTTP exchange or a
raised requests.RequestException. -/
inductive HttpResult where
  | ok (status : Int) (body : String)
  | exn (msg : String)
deriving DecidableEq

/-- The record appended to responses for one post attempt. -/
def sendOutcome : HttpResult → Outcome
  | .ok s b => ⟨some s, some b, none⟩
  | .exn e => ⟨none, none, some e⟩

/-- External world of one run: the random stream, the successive
time.time() readings, and the transport result of each post. -/
structure World where
  rng : RNG
  time : Nat → Int
  http : Nat → HttpResult

/-- How the while loop of lambda_handler ended. -/
inductive LoopExit where
  | done
  | raised (e : String)
  | fuelOut
deriving DecidableEq

/-- The try block of one loop iteration of lambda_handler: generate a
value, draw the cell id (random.randint raises ValueError when
cell_start > cell_end, and that exception is not a RequestException, so
it escapes the except clause), draw the background, post.  nposts is
the number of posts already made; the transport answers this post with
w.http nposts.  Returns the posted cell, the record appended to
responses, and the advanced random state. -/
def loopStep (w : World) (cs ce : Int) (g : RNG) (nposts : Nat) :
    Except String (Cell × Outcome × RNG) :=
  let (data, g1) := generate_random_value g
  match randint cs ce g1 with
  | .error e => .error e
  | .ok (ide, g2) =>
    let (bg, g3) := randintP 0 16777215 g2
    .ok (make_cell ide data bg, sendOutcome (w.http nposts), g3)

/-- The while loop of lambda_handler.  j counts the loop-condition
evaluations done so far: reading 0 of the time stream is start_time and
the j-th condition check reads index j + 1.  rs is the responses list,
ps the trace of cells posted so far (the body of each POST, in send
order).  The time.sleep(interval) call has no observable effect in this
model. -/
def runLoop (w : World) (duration : Int) (cs ce : Int) :
    Nat → RNG → Nat → List Outcome → List Cell → LoopExit × List Outcome × List Cell
  | 0, _, _, rs, ps => (.fuelOut, rs, ps)
  | fuel + 1, g, j, rs, ps =>
    if w.time (j + 1) - w.time 0 < duration then
      match loopStep w cs ce g ps.length with
      | .error e => (.raised e, rs, ps)
      | .ok (cell, out, g3) =>
        runLoop w duration cs ce fuel g3 (j + 1) (rs ++ [out]) (ps ++ [cell])
    else (.done, rs, ps)

/-- The event dict: each configuration key may be absent. -/
structure Event where
  url : Option String
  duration : Option Int
  interval : Option ℚ
  cell_start : Option Int
  cell_end : Option Int

/-- How one call of lambda_handler ended, as observed by the caller. -/
inductive HandlerExit where
  | keyError (k : String)
  | configError
  | returned (requests_made : Nat) (responses : List Outcome)
  | raised (e : String)
  | fuelOut
deriving DecidableEq

/-- lambda_handler of loadtest.py.  The pair also returns the trace of
cells actually posted.  event.url is a mandatory lookup (KeyError when
absent), the other keys fall back to the defaults of event.get; an empty
url returns the configuration-error dict before the loop starts. -/
def lambda_handler (event : Event) (w : World) (fuel : Nat) :
    HandlerExit × List Cell :=
  match event.url with
  | none => (.keyError "url", [])
  | some url =>
    let duration := event.duration.getD 10
    let _interval := event.interval.getD (1 / 10)
    let cs := event.cell_start.getD 0
    let ce := event.cell_end.getD 10000
    if url = "" then (.configError, [])
    else
      match runLoop w duration cs ce fuel w.rng 0 [] [] with
      | (.done, rs, ps) => (.returned rs.length rs, ps)
      | (.raised e, _, ps) => (.raised e, ps)
      | (.fuelOut, _, ps) => (.fuelOut, ps)

/-- Exit behaviour of the __main__ block after the run. -/
inductive CliExit where
  | code (n : Nat)
  | keyError
deriving DecidableEq

/-- The inspection loop of the __main__ block, carrying found_error:
each record is first tested for the key error, then unconditionally
indexed at status_code; a record without that key raises KeyError,
modelled as none. -/
def cliLoop : List Outcome → Bool → Option Bool
  | [], fe => some fe
  | r :: rs, fe =>
    let fe1 := if r.error.isSome then true else fe
    match r.status_code with
    | none => none
    | some sc => cliLoop rs (if sc ≠ 200 then true else fe1)

/-- Process exit of the __main__ block given the responses list of the
run result: sys.exit(0) when no failure was found, sys.exit(1)
otherwise, and an uncaught KeyError when an inspection lookup fails. -/
def cliMain (responses : List Outcome) : CliExit :=
  match cliLoop responses false with
  | none => .keyError
  | some true => .code 1
  | some false => .code 0

/-- The one record per attempt that the __main__ block treats as a
failure: an error key present, or a status code other than 200; this is
read off the two if statements of the inspection loop. -/
def badOutcome (o : Outcome) : Bool :=
  o.error.isSome || decide (o.status_code ≠ some 200)

/-- The spec wording of a failing outcome for the exit-code rule: an
HTTP status outside the 2xx range, or an error field.  Written from the
words of the spec, to be compared with badOutcome of the code. -/
def specFailureOutcome (o : Outcome) : Bool :=
  (match o.status_code with
   | some sc => decide (sc < 200 ∨ 300 ≤ sc)
   | none => false) || o.error.isSome

/-- Character class A-Z. -/
def isUpperAZ (c : Char) : Bool := 'A' ≤ c && c ≤ 'Z'

/-- Character class 1-9. -/
def isDigit19 (c : Char) : Bool := '1' ≤ c && c ≤ '9'

/-- Character class 0-9. -/
def isDigit09 (c : Char) : Bool := '0' ≤ c && c ≤ '9'

/-- Matcher for the numeric tail of the claimed formula pattern: one
char of 1-9 followed by at most three chars of 0-9. -/
def numTail (l : List Char) : Bool :=
  match l with
  | [] => false
  | d :: ds => isDigit19 d && decide (ds.length ≤ 3) && ds.all isDigit09

/-- Full-string matcher for the claimed pattern of formula values. -/
def matchesFormulaPattern (s : String) : Bool :=
  match s.data with
  | c :: u :: rest => c == '=' && isUpperAZ u && numTail rest
  | _ => false

/-- Numeric tail of the amended pattern: as numTail, or the five chars
of 10000 (the top value of randint(1, 10000), whose five digits escape
the claimed at-most-four-digit pattern). -/
def numTailAmended (l : List Char) : Bool :=
  l == ['1', '0', '0', '0', '0'] || numTail l

/-- Full-string matcher for the amended pattern of formula values. -/
def matchesFormulaPatternAmended (s : String) : Bool :=
  match s.data with
  | c :: u :: rest => c == '=' && isUpperAZ u && numTailAmended rest
  | _ => false

/-- Random stream that sends generate_random_value into the formula
branch with letter A and drawn number 10000. -/
def gFormulaMax : RNG := ⟨fun i => [2, 0, 9999].getD i 0, 0⟩

/-- World whose clock never advances and whose transport always
delivers status 200. -/
def wStill : World := ⟨⟨fun _ => 0, 0⟩, fun _ => 0, fun _ => .ok 200 ""⟩

/-- World whose clock advances one second per reading: with duration 2
the loop runs exactly one iteration. -/
def wOneStep : World := ⟨⟨fun _ => 0, 0⟩, fun i => (i : Int), fun _ => .ok 200 "ok"⟩

/-- World whose clock advances one second per reading and whose
transport fails every post with a connection error. -/
def wErr : World :=
  ⟨⟨fun _ => 0, 0⟩, fun i => (i : Int), fun _ => .exn "connection refused"⟩

/-- Event of the __main__ block of loadtest.py, with duration 2. -/
def evLocal : Event :=
  ⟨some "http://localhost:3000/api/spreadsheet", some 2, none, none, none⟩

/-- Event with duration 0. -/
def evDurZero : Event :=
  ⟨some "http://localhost:3000/api/spreadsheet", some 0, none, none, none⟩

/-- Configuration of the scenario of the spec: an empty url. -/
def evEmptyUrl : Event := ⟨some "", some 5, none, none, none⟩

/-- Event dict without the key url. -/
def evNoUrl : Event := ⟨none, some 5, none, none, none⟩

end Loadtest

namespace Img2xls

/-!
Embedding of img2xls.py.  Image decoding and resizing belong to the
external imaging library and are out of the scope of the spec, so the
resized image enters image_to_excel as an oracle: a function from the
source image and the requested size to the resized image.  The model
returns the sequence of cells posted by the nested pixel loop, in send
order; the tool additionally counts non-200 responses, which no claim
touches.
-/

/-- An RGBA image: dimensions and the four channels of the pixel at
(col, row), each channel in [0, 255] as delivered by PIL. -/
structure PILImage where
  width : Nat
  height : Nat
  pixel : Nat → Nat → Nat × Nat × Nat × Nat

/-- width_percent of image_to_excel: max_width / float(img.width),
with exact rational arithmetic in place of floats. -/
def width_percent (img : PILImage) (max_width : Nat) : ℚ :=
  (max_width : ℚ) / (img.width : ℚ)

/-- new_height of image_to_excel: int(float(img.height*2) *
width_percent); int truncates, and the value is nonnegative, so floor
agrees. -/
def new_height (img : PILImage) (max_width : Nat) : Nat :=
  (⌊(2 * img.height : ℚ) * width_percent img max_width⌋).toNat

/-- struct.pack with format >4B: four bytes in argument order (the
byte-order mark is vacuous for single bytes). -/
def pack4B (r g b a : Nat) : List Nat := [r, g, b, a]

/-- Unsigned value of a byte list read little-endian: the byte order in
which struct.unpack with a bare format character i reads memory on the
little-endian hosts the tool runs on, a bare i taking native order. -/
def leNat : List Nat → Nat
  | [] => 0
  | b :: bs => b + 256 * leNat bs

/-- Reinterpret the low 32 bits of an unsigned value as the signed
32-bit integer with the same bit pattern. -/
def toSigned32 (n : Nat) : Int :=
  if n % 2 ^ 32 < 2 ^ 31 then ((n % 2 ^ 32 : Nat) : Int)
  else ((n % 2 ^ 32 : Nat) : Int) - 2 ^ 32

/-- rgba_32 of image_to_excel:
struct.unpack(i, struct.pack(>4B, r, g, b, a))[0], i.e. the four
channel bytes in memory order read back as one native-order (little
endian) signed 32-bit integer. -/
def rgba_32 (r g b a : Nat) : Int := toSigned32 (leNat (pack4B r g b a))

/-- Written from the words of the spec, for comparison with rgba_32:
the big-endian concatenation of bytes R,G,B,A reinterpreted as a signed
32-bit integer. -/
def spec_rgba_be (r g b a : Nat) : Int :=
  toSigned32 (((r * 256 + g) * 256 + b) * 256 + a)

/-- The cell posted for the pixel at (col, row) of the resized image:
id row_start*26 + row*26 + col, empty raw_value, rgba_32 background. -/
def pixelCell (img : PILImage) (row_start row col : Nat) : Loadtest.Cell :=
  let (r, g, b, a) := img.pixel col row
  Loadtest.make_cell ((row_start * 26 + row * 26 + col : Nat) : Int) "" (rgba_32 r g b a)

/-- The sequence of cells image_to_excel posts, in send order: the
nested loop over range(new_height) and range(max_width). -/
def image_to_excel_posts (resize : PILImage → Nat × Nat → PILImage)
    (img0 : PILImage) (max_width row_start : Nat) : List Loadtest.Cell :=
  let nh := new_height img0 max_width
  let img := resize img0 (max_width, nh)
  ((List.range nh).map fun row =>
    (List.range max_width).map fun col => pixelCell img row_start row col).flatten

/-- The 1×1 image of the scenario: a single pixel of RGBA
(255, 0, 0, 255). -/
def img1x1 : PILImage := ⟨1, 1, fun _ _ => (255, 0, 0, 255)⟩

/-- Resize oracle for the scenario: resampling an image whose pixels
all equal px yields px at every pixel of the requested size. -/
def resizeConst (px : Nat × Nat × Nat × Nat) : PILImage → Nat × Nat → PILImage :=
  fun _ wh => ⟨wh.1, wh.2, fun _ _ => px⟩

end Img2xls

/-!
Theorems.  Each claim of the specification review is settled below; the
helper lemmas come first, the claim theorems carry the claim id in
their doc comment.
-/

namespace Loadtest

/-- Range contract of random.randint on a nonempty range: the drawn
value lies in [lo, hi]. -/
theorem randintP_bounds {lo hi : Int} (g : RNG) (h : lo ≤ hi) :
    lo ≤ (randintP lo hi g).1 ∧ (randintP lo hi g).1 ≤ hi := by
  have hm : (0 : Int) < hi - lo + 1 := by omega
  have h1 : 0 ≤ ((g.stream g.pos : Int)) % (hi - lo + 1) :=
    Int.emod_nonneg _ (by omega)
  have h2 : ((g.stream g.pos : Int)) % (hi - lo + 1) < hi - lo + 1 :=
    Int.emod_lt_of_pos _ hm
  simp only [randintP, RNG.next]
  omega

/-- On a nonempty range, randint succeeds and agrees with randintP. -/
theorem randint_eq_ok {lo hi : Int} (g : RNG) (h : lo ≤ hi) :
    randint lo hi g = .ok (randintP lo hi g) := by
  simp [randint, h]

/-- A successful loop iteration posts a cell whose id was drawn by
randint(cell_start, cell_end), whose background was drawn by
randint(0, 16777215), and appends the record of the transport answer
to this post. -/
theorem loopStep_ok_spec {w : World} {cs ce : Int} {g : RNG} {n : Nat}
    {cell : Cell} {out : Outcome} {g3 : RNG}
    (h : loopStep w cs ce g n = .ok (cell, out, g3)) :
    cs ≤ cell.id ∧ cell.id ≤ ce ∧
    0 ≤ cell.background ∧ cell.background ≤ 16777215 ∧
    out = sendOutcome (w.http n) := by
  unfold loopStep at h
  rcases hgen : generate_random_value g with ⟨data, g1⟩
  rw [hgen] at h
  dsimp only at h
  rcases hr : randint cs ce g1 with e | ⟨ide, g2⟩
  · rw [hr] at h; simp at h
  · rw [hr] at h
    dsimp only at h
    rcases hbg : randintP 0 16777215 g2 with ⟨bg, g4⟩
    rw [hbg] at h
    dsimp only at h
    simp only [Except.ok.injEq, Prod.mk.injEq] at h
    obtain ⟨hcell, hout, -⟩ := h
    by_cases hle : cs ≤ ce
    · have h2 := (randint_eq_ok g1 hle).symm.trans hr
      simp only [Except.ok.injEq] at h2
      have hid := randintP_bounds g1 hle
      rw [h2] at hid
      have hbgb := randintP_bounds g2 (show (0:Int) ≤ 16777215 by norm_num)
      rw [hbg] at hbgb
      subst hcell
      exact ⟨hid.1, hid.2, hbgb.1, hbgb.2, hout.symm⟩
    · simp [randint, hle] at hr

/-- With a nonempty cell id range the loop body cannot raise. -/
theorem loopStep_isOk {w : World} {cs ce : Int} (g : RNG) (n : Nat)
    (hle : cs ≤ ce) :
    ∃ cell out g3, loopStep w cs ce g n = .ok (cell, out, g3) := by
  unfold loopStep
  rcases hgen : generate_random_value g with ⟨data, g1⟩
  dsimp only
  rw [randint_eq_ok g1 hle]
  rcases hbg : randintP cs ce g1 with ⟨ide, g2⟩
  dsimp only
  exact ⟨_, _, _, rfl⟩

end Loadtest

namespace Loadtest

/-- Any property guaranteed by the loop body for each posted cell holds
for every cell in the final post trace. -/
theorem runLoop_cells_pred {w : World} {d cs ce : Int} (P : Cell → Prop)
    (hstep : ∀ g n cell out g3, loopStep w cs ce g n = .ok (cell, out, g3) → P cell) :
    ∀ fuel g j rs ps, (∀ c ∈ ps, P c) →
      ∀ c ∈ (runLoop w d cs ce fuel g j rs ps).2.2, P c := by
  intro fuel
  induction fuel with
  | zero => intro g j rs ps hps; simpa [runLoop] using hps
  | succ f ih =>
    intro g j rs ps hps
    unfold runLoop
    by_cases hc : w.time (j + 1) - w.time 0 < d
    · rw [if_pos hc]
      rcases hok : loopStep w cs ce g ps.length with e | ⟨cell, out, g3⟩
      · dsimp only; exact hps
      · dsimp only
        apply ih
        intro c hmem
        rcases List.mem_append.mp hmem with hmem2 | hmem2
        · exact hps c hmem2
        · rcases List.mem_singleton.mp hmem2 with rfl
          exact hstep _ _ _ _ _ hok
    · rw [if_neg hc]; exact hps

/-- With a nonempty cell id range the while loop never ends by an
uncaught exception. -/
theorem runLoop_no_raise {w : World} {d cs ce : Int} (hle : cs ≤ ce) :
    ∀ fuel g j rs ps e, (runLoop w d cs ce fuel g j rs ps).1 ≠ .raised e := by
  intro fuel
  induction fuel with
  | zero => intro g j rs ps e; simp [runLoop]
  | succ f ih =>
    intro g j rs ps e
    unfold runLoop
    by_cases hc : w.time (j + 1) - w.time 0 < d
    · rw [if_pos hc]
      obtain ⟨cell, out, g3, hok⟩ := loopStep_isOk (w := w) g ps.length hle
      rw [hok]
      dsimp only
      exact ih g3 (j + 1) _ _ e
    · rw [if_neg hc]; simp

/-- Loop invariant: one response record per posted cell, and the i-th
record is exactly the record of the i-th transport answer. -/
theorem runLoop_responses {w : World} {d cs ce : Int} :
    ∀ fuel g j rs ps ex rs2 ps2,
      runLoop w d cs ce fuel g j rs ps = (ex, rs2, ps2) →
      rs.length = ps.length →
      (∀ i (hi : i < rs.length), rs.get ⟨i, hi⟩ = sendOutcome (w.http i)) →
      rs2.length = ps2.length ∧
      (∀ i (hi : i < rs2.length), rs2.get ⟨i, hi⟩ = sendOutcome (w.http i)) := by
  intro fuel
  induction fuel with
  | zero =>
    intro g j rs ps ex rs2 ps2 heq h1 h2
    simp only [runLoop, Prod.mk.injEq] at heq
    obtain ⟨-, heq2, heq3⟩ := heq
    subst heq2; subst heq3
    exact ⟨h1, h2⟩
  | succ f ih =>
    intro g j rs ps ex rs2 ps2 heq h1 h2
    unfold runLoop at heq
    by_cases hc : w.time (j + 1) - w.time 0 < d
    · rw [if_pos hc] at heq
      rcases hok : loopStep w cs ce g ps.length with e | ⟨cell, out, g3⟩ <;> rw [hok] at heq
      · simp only [Prod.mk.injEq] at heq
        obtain ⟨-, heq2, heq3⟩ := heq
        subst heq2; subst heq3
        exact ⟨h1, h2⟩
      · dsimp only at heq
        apply ih _ _ _ _ _ _ _ heq
        · simp [h1]
        · intro i hi
          simp only [List.length_append, List.length_singleton] at hi
          by_cases hlt : i < rs.length
          · rw [List.get_eq_getElem, List.getElem_append_left hlt]
            exact h2 i hlt
          · have hieq : i = rs.length := by omega
            subst hieq
            rw [List.get_eq_getElem, List.getElem_concat_length]
            · rw [h1]
              exact (loopStep_ok_spec hok).2.2.2.2
            · rfl
    · rw [if_neg hc] at heq
      simp only [Prod.mk.injEq] at heq
      obtain ⟨-, heq2, heq3⟩ := heq
      subst heq2; subst heq3
      exact ⟨h1, h2⟩

end Loadtest

namespace Loadtest

/-- When every record carries a status_code, the inspection loop
completes, and found_error is the disjunction of the accumulator with
badOutcome over the records. -/
theorem cliLoop_eq_some : ∀ (rs : List Outcome) (fe : Bool),
    (∀ o ∈ rs, o.status_code ≠ none) →
    cliLoop rs fe = some (fe || rs.any badOutcome) := by
  intro rs
  induction rs with
  | nil => intro fe _; simp [cliLoop]
  | cons r rs ih =>
    intro fe h
    rcases hsc : r.status_code with _ | sc
    · exact absurd hsc (h r (List.mem_cons_self r rs))
    · simp only [cliLoop, hsc]
      rw [ih _ (fun o ho => h o (List.mem_cons_of_mem r ho))]
      by_cases h200 : sc = 200 <;> cases herr : r.error.isSome <;>
        simp [badOutcome, hsc, h200, herr, Bool.or_comm, Bool.or_assoc,
          Bool.or_left_comm]

/-- A record without a status_code key makes the inspection loop raise
KeyError. -/
theorem cliLoop_eq_none : ∀ (rs : List Outcome) (fe : Bool),
    (∃ o ∈ rs, o.status_code = none) → cliLoop rs fe = none := by
  intro rs
  induction rs with
  | nil => intro fe h; simp at h
  | cons r rs ih =>
    intro fe h
    rcases hsc : r.status_code with _ | sc
    · simp [cliLoop, hsc]
    · simp only [cliLoop, hsc]
      apply ih
      obtain ⟨o, ho, hno⟩ := h
      rcases List.mem_cons.mp ho with rfl | hm
      · rw [hsc] at hno; exact absurd hno (by simp)
      · exact ⟨o, hm, hno⟩

/-- A record that carries a status_code is accepted by the inspection
loop exactly when the status is 200 and there is no error key. -/
theorem badOutcome_false_iff (o : Outcome) (h : o.status_code ≠ none) :
    badOutcome o = false ↔ o.status_code = some 200 ∧ o.error = none := by
  rcases hsc : o.status_code with _ | sc
  · exact absurd hsc h
  · cases herr : o.error with
    | none => simp [badOutcome, hsc, herr]
    | some e => simp [badOutcome, hsc, herr]

end Loadtest

namespace Loadtest

/-- C1 (amended): for every run result whose outcomes all carry a
status_code field, the CLI wrapper exits with code 0 if and only if no
outcome has a status code different from 200 or an error field, and
otherwise exits with code 1.  (The original 2xx wording fails: the
source compares against the literal 200.) -/
theorem claim_C1_amended (rs : List Outcome)
    (h : ∀ o ∈ rs, o.status_code ≠ none) :
    (cliMain rs = .code 0 ↔ ∀ o ∈ rs, o.status_code = some 200 ∧ o.error = none) ∧
    (cliMain rs = .code 0 ∨ cliMain rs = .code 1) := by
  have hsome := cliLoop_eq_some rs false h
  have key : rs.any badOutcome = false ↔
      ∀ o ∈ rs, o.status_code = some 200 ∧ o.error = none := by
    rw [List.any_eq_false]
    constructor
    · intro hb o ho
      exact (badOutcome_false_iff o (h o ho)).mp (Bool.not_eq_true _ ▸ hb o ho)
    · intro hb o ho
      exact fun ht => by
        rw [(badOutcome_false_iff o (h o ho)).mpr (hb o ho)] at ht
        exact Bool.false_ne_true ht
  constructor
  · rw [← key]
    unfold cliMain
    rw [hsome]
    cases rs.any badOutcome <;> simp
  · unfold cliMain
    rw [hsome]
    cases rs.any badOutcome <;> simp

/-- Witness for C1: a run result with one 200 outcome exits with
code 0. -/
theorem claim_C1_witness :
    cliMain [⟨some 200, some "ok", none⟩] = .code 0 :=
  (claim_C1_amended [⟨some 200, some "ok", none⟩] (by decide)).1.mpr (by decide)

/-- Counterexample to C1 as stated: a single outcome with status 201 is
inside the 2xx range and has no error field, so the claim predicts exit
code 0, but the wrapper compares against the literal 200 and exits with
code 1. -/
theorem claim_C1_counterexample :
    cliMain [⟨some 201, some "created", none⟩] = .code 1 ∧
    specFailureOutcome ⟨some 201, some "created", none⟩ = false := by decide

/-- C5: for every responses sequence containing a transport-error
outcome (only an error field, no status_code field), the inspection
loop of the CLI wrapper fails at the status_code lookup instead of
completing the scan and exiting with code 1. -/
theorem claim_C5 (rs : List Outcome)
    (h : ∃ o ∈ rs, o.error.isSome ∧ o.status_code = none) :
    cliMain rs = .keyError := by
  obtain ⟨o, ho, _, hnone⟩ := h
  unfold cliMain
  rw [cliLoop_eq_none rs false ⟨o, ho, hnone⟩]

/-- Witness for C5: one connection-refused outcome makes the wrapper
raise KeyError. -/
theorem claim_C5_witness :
    cliMain [⟨none, none, some "connection refused"⟩] = .keyError :=
  claim_C5 [⟨none, none, some "connection refused"⟩] (by decide)

end Loadtest

namespace Loadtest

/-- An event without the key url makes lambda_handler raise KeyError
before doing anything else. -/
theorem handler_none_url (ev : Event) (w : World) (fuel : Nat)
    (h : ev.url = none) : lambda_handler ev w fuel = (.keyError "url", []) := by
  unfold lambda_handler
  rw [h]

/-- An event whose url is the empty string returns the
configuration-error dict before the loop, with no post made. -/
theorem handler_empty_url (ev : Event) (w : World) (fuel : Nat)
    (h : ev.url = some "") : lambda_handler ev w fuel = (.configError, []) := by
  unfold lambda_handler
  rw [h]
  simp

/-- With a present nonempty url, lambda_handler is the while loop run
on the configured duration and cell range with the documented
defaults. -/
theorem handler_eq_loop (ev : Event) (w : World) (fuel : Nat) (u : String)
    (hurl : ev.url = some u) (hu : u ≠ "") :
    lambda_handler ev w fuel =
      (match runLoop w (ev.duration.getD 10) (ev.cell_start.getD 0)
          (ev.cell_end.getD 10000) fuel w.rng 0 [] [] with
       | (.done, rs, ps) => (.returned rs.length rs, ps)
       | (.raised e, _, ps) => (.raised e, ps)
       | (.fuelOut, _, ps) => (.fuelOut, ps)) := by
  unfold lambda_handler
  rw [hurl]
  dsimp only
  rw [if_neg hu]

/-- Any property guaranteed by the loop body for each posted cell holds
for every cell posted by lambda_handler. -/
theorem handler_cells_pred (ev : Event) (w : World) (fuel : Nat)
    (P : Cell → Prop)
    (hstep : ∀ g n cell out g3,
      loopStep w (ev.cell_start.getD 0) (ev.cell_end.getD 10000) g n =
        .ok (cell, out, g3) → P cell) :
    ∀ c ∈ (lambda_handler ev w fuel).2, P c := by
  rcases hurl : ev.url with _ | u
  · rw [handler_none_url ev w fuel hurl]; intro c hc; simp at hc
  · by_cases hu : u = ""
    · subst hu
      rw [handler_empty_url ev w fuel hurl]; intro c hc; simp at hc
    · rw [handler_eq_loop ev w fuel u hurl hu]
      intro c hc
      rcases hloop : runLoop w (ev.duration.getD 10) (ev.cell_start.getD 0)
          (ev.cell_end.getD 10000) fuel w.rng 0 [] [] with ⟨ex, rs2, ps2⟩
      rw [hloop] at hc
      have hmem : c ∈ ps2 := by cases ex <;> simpa using hc
      have := runLoop_cells_pred (d := ev.duration.getD 10) P hstep fuel w.rng 0 [] []
        (by intro x hx; simp at hx)
      rw [hloop] at this
      exact this c hmem

end Loadtest

namespace Loadtest

/-- Counterexample to C4 as stated: when the key url is absent the
handler raises KeyError at event[url]; it does not return the
configuration-error result the claim promises for an absent url. -/
theorem claim_C4_counterexample :
    lambda_handler evNoUrl wStill 3 = (.keyError "url", []) ∧
    HandlerExit.keyError "url" ≠ HandlerExit.configError := by
  constructor
  · exact handler_none_url evNoUrl wStill 3 rfl
  · decide

/-- C4 (amended): for every configuration whose url field is present
and equal to the empty string, the load generator returns an immediate
configuration error result, makes zero HTTP requests, and does not
raise.  (An absent url instead raises KeyError.) -/
theorem claim_C4_amended (ev : Event) (w : World) (fuel : Nat)
    (h : ev.url = some "") :
    lambda_handler ev w fuel = (.configError, []) :=
  handler_empty_url ev w fuel h

/-- Witness for C4: the scenario configuration with empty url and
duration 5 yields the configuration error with zero posts. -/
theorem claim_C4_witness :
    lambda_handler evEmptyUrl wStill 3 = (.configError, []) :=
  claim_C4_amended evEmptyUrl wStill 3 rfl

/-- C7: for every run configured with duration 0, a present nonempty
url, a clock that does not run backwards between the start reading and
the first loop check, and at least one unit of fuel, the loop body
never executes: the handler returns requests_made 0, no responses and
no posts. -/
theorem claim_C7 (ev : Event) (w : World) (fuel : Nat) (u : String)
    (hurl : ev.url = some u) (hu : u ≠ "")
    (hdur : ev.duration = some 0)
    (hclock : w.time 0 ≤ w.time 1) (hfuel : 1 ≤ fuel) :
    lambda_handler ev w fuel = (.returned 0 [], []) := by
  obtain ⟨f, rfl⟩ : ∃ f, fuel = f + 1 := ⟨fuel - 1, by omega⟩
  rw [handler_eq_loop ev w (f + 1) u hurl hu]
  have hloop : runLoop w (ev.duration.getD 10) (ev.cell_start.getD 0)
      (ev.cell_end.getD 10000) (f + 1) w.rng 0 [] [] = (.done, [], []) := by
    unfold runLoop
    rw [hdur]
    simp only [Option.getD_some, Nat.zero_add]
    rw [if_neg (by omega)]
  rw [hloop]
  rfl

/-- Witness for C7: the duration-0 event returns zero requests. -/
theorem claim_C7_witness :
    lambda_handler evDurZero wStill 1 = (.returned 0 [], []) :=
  claim_C7 evDurZero wStill 1 _ rfl (by decide) rfl (by decide) (by decide)

end Loadtest

namespace Loadtest

/-- C6: for every run whose event carries a url key and a nonempty cell
id range, the handler never ends in an uncaught exception, and whenever
the run returns, any attempt whose transport raised a RequestException
is recorded in place as an outcome holding only the error description;
the loop continued past it (later attempts have their own records). -/
theorem claim_C6 (ev : Event) (w : World) (fuel : Nat) (u : String)
    (hurl : ev.url = some u)
    (hrange : ev.cell_start.getD 0 ≤ ev.cell_end.getD 10000) :
    (∀ e, (lambda_handler ev w fuel).1 ≠ .raised e) ∧
    (∀ k, (lambda_handler ev w fuel).1 ≠ .keyError k) ∧
    (∀ n rs, (lambda_handler ev w fuel).1 = .returned n rs →
      ∀ i (hi : i < rs.length) e, w.http i = .exn e →
        rs.get ⟨i, hi⟩ = ⟨none, none, some e⟩) := by
  by_cases hu : u = ""
  · subst hu
    rw [handler_empty_url ev w fuel hurl]
    refine ⟨by simp, by simp, ?_⟩
    intro n rs h
    simp at h
  · rw [handler_eq_loop ev w fuel u hurl hu]
    rcases hloop : runLoop w (ev.duration.getD 10) (ev.cell_start.getD 0)
        (ev.cell_end.getD 10000) fuel w.rng 0 [] [] with ⟨ex, rs2, ps2⟩
    cases ex with
    | raised e =>
      refine absurd (show (runLoop w (ev.duration.getD 10)
          (ev.cell_start.getD 0) (ev.cell_end.getD 10000) fuel
          w.rng 0 [] []).1 = .raised e by rw [hloop])
        (runLoop_no_raise hrange fuel w.rng 0 [] [] e)
    | fuelOut =>
      refine ⟨by simp, by simp, ?_⟩
      intro n rs h
      simp at h
    | done =>
      refine ⟨by simp, by simp, ?_⟩
      intro n rs h
      dsimp only at h
      simp only [HandlerExit.returned.injEq] at h
      obtain ⟨-, hrs⟩ := h
      subst hrs
      intro i hi e hexn
      have hchar := runLoop_responses fuel w.rng 0 [] [] LoopExit.done rs2 ps2
        hloop rfl (by intro i hi; exact absurd hi (Nat.not_lt_zero i))
      rw [hchar.2 i hi, hexn]
      rfl

end Loadtest

namespace Loadtest

/-- Witness for C6: with a transport that refuses every connection the
handler does not raise, and the recorded outcome of the first attempt
is the error record. -/
theorem claim_C6_witness :
    ((lambda_handler evLocal wErr 5).1 ≠ .raised "boom") ∧
    [(⟨none, none, some "connection refused"⟩ : Outcome)].get ⟨0, by decide⟩ =
      ⟨none, none, some "connection refused"⟩ :=
  ⟨(claim_C6 evLocal wErr 5 _ rfl (by decide)).1 "boom",
   (claim_C6 evLocal wErr 5 _ rfl (by decide)).2.2 1
     [⟨none, none, some "connection refused"⟩] (by decide) 0 (by decide)
     "connection refused" rfl⟩

/-- C9: whenever lambda_handler returns, requests_made equals the
length of the responses sequence, exactly one cell was posted per
response record, and the i-th record is the record of the i-th
transport answer, so outcomes sit in send order. -/
theorem claim_C9 (ev : Event) (w : World) (fuel : Nat) (n : Nat)
    (rs : List Outcome)
    (hret : (lambda_handler ev w fuel).1 = .returned n rs) :
    n = rs.length ∧ rs.length = (lambda_handler ev w fuel).2.length ∧
    ∀ i (hi : i < rs.length), rs.get ⟨i, hi⟩ = sendOutcome (w.http i) := by
  rcases hurl : ev.url with _ | u
  · rw [handler_none_url ev w fuel hurl] at hret; simp at hret
  · by_cases hu : u = ""
    · subst hu
      rw [handler_empty_url ev w fuel hurl] at hret; simp at hret
    · rw [handler_eq_loop ev w fuel u hurl hu] at hret
      rw [handler_eq_loop ev w fuel u hurl hu]
      rcases hloop : runLoop w (ev.duration.getD 10) (ev.cell_start.getD 0)
          (ev.cell_end.getD 10000) fuel w.rng 0 [] [] with ⟨ex, rs2, ps2⟩
      rw [hloop] at hret
      cases ex with
      | raised e => simp at hret
      | fuelOut => simp at hret
      | done =>
        dsimp only at hret
        simp only [HandlerExit.returned.injEq] at hret
        obtain ⟨hn, hrs⟩ := hret
        subst hrs
        have hchar := runLoop_responses fuel w.rng 0 [] [] LoopExit.done rs2 ps2
          hloop rfl (by intro i hi; exact absurd hi (Nat.not_lt_zero i))
        exact ⟨hn.symm, hchar.1, hchar.2⟩

/-- Witness for C9: a run of one iteration returns requests_made 1 with
one response and one posted cell. -/
theorem claim_C9_witness :
    (1 = [(⟨some 200, some "ok", none⟩ : Outcome)].length) ∧
    [(⟨some 200, some "ok", none⟩ : Outcome)].length =
      (lambda_handler evLocal wOneStep 5).2.length :=
  have h := claim_C9 evLocal wOneStep 5 1 [⟨some 200, some "ok", none⟩] (by decide)
  ⟨h.1, h.2.1⟩

/-- C8: for every run with cell_start at most cell_end (after the
defaults 0 and 10000), every posted cell id lies in the inclusive
range, and when the bounds coincide every id equals that common
value. -/
theorem claim_C8 (ev : Event) (w : World) (fuel : Nat)
    (hrange : ev.cell_start.getD 0 ≤ ev.cell_end.getD 10000) :
    (∀ c ∈ (lambda_handler ev w fuel).2,
      ev.cell_start.getD 0 ≤ c.id ∧ c.id ≤ ev.cell_end.getD 10000) ∧
    (ev.cell_start.getD 0 = ev.cell_end.getD 10000 →
      ∀ c ∈ (lambda_handler ev w fuel).2, c.id = ev.cell_start.getD 0) := by
  have h1 := handler_cells_pred ev w fuel
    (fun c => ev.cell_start.getD 0 ≤ c.id ∧ c.id ≤ ev.cell_end.getD 10000)
    (by
      intro g n cell out g3 hok
      have := loopStep_ok_spec hok
      exact ⟨this.1, this.2.1⟩)
  refine ⟨h1, ?_⟩
  intro heq c hc
  have := h1 c hc
  omega

/-- Witness for C8: the cell posted by a one-iteration run has its id
inside [0, 10000]. -/
theorem claim_C8_witness :
    ((0 : Int) ≤ (⟨0, "aaaaa", 0⟩ : Cell).id ∧
      (⟨0, "aaaaa", 0⟩ : Cell).id ≤ (10000 : Int)) :=
  (claim_C8 evLocal wOneStep 5 (by decide)).1 ⟨0, "aaaaa", 0⟩ (by decide)

/-- C10: for every run, every cell posted by the load generator has a
background in the inclusive range [0, 16777215]. -/
theorem claim_C10 (ev : Event) (w : World) (fuel : Nat) :
    ∀ c ∈ (lambda_handler ev w fuel).2,
      0 ≤ c.background ∧ c.background ≤ 16777215 :=
  handler_cells_pred ev w fuel
    (fun c => 0 ≤ c.background ∧ c.background ≤ 16777215)
    (by
      intro g n cell out g3 hok
      have := loopStep_ok_spec hok
      exact ⟨this.2.2.1, this.2.2.2.1⟩)

/-- Witness for C10: the background of the cell posted by a
one-iteration run lies in [0, 16777215]. -/
theorem claim_C10_witness :
    ((0 : Int) ≤ (⟨0, "aaaaa", 0⟩ : Cell).background ∧
      (⟨0, "aaaaa", 0⟩ : Cell).background ≤ 16777215) :=
  claim_C10 evLocal wOneStep 5 ⟨0, "aaaaa", 0⟩ (by decide)

end Loadtest

namespace Loadtest

/-- A nonzero decimal digit prints as a character of class 1-9. -/
theorem digitChar_19 : ∀ d, d < 10 → d ≠ 0 → isDigit19 (Nat.digitChar d) = true := by decide

/-- A decimal digit prints as a character of class 0-9. -/
theorem digitChar_09 : ∀ d, d < 10 → isDigit09 (Nat.digitChar d) = true := by decide

/-- The decimal printer of core agrees with Nat.digits: with enough
fuel it emits the digits of n, most significant first, before the
accumulator. -/
theorem toDigitsCore_eq_digits :
    ∀ (fuel n : Nat) (acc : List Char), 0 < n → n < 10 ^ fuel →
      Nat.toDigitsCore 10 fuel n acc =
        ((Nat.digits 10 n).map Nat.digitChar).reverse ++ acc := by
  intro fuel
  induction fuel with
  | zero => intro n acc h0 hlt; simp at hlt; omega
  | succ f ih =>
    intro n acc h0 hlt
    unfold Nat.toDigitsCore
    by_cases hq : n / 10 = 0
    · rw [if_pos hq]
      have hn10 : n < 10 := by omega
      rw [Nat.digits_def' (by norm_num : (1:Nat) < 10) h0, hq, Nat.digits_zero]
      simp
    · rw [if_neg hq]
      have h2 : n / 10 < 10 ^ f := by
        rw [Nat.div_lt_iff_lt_mul (by norm_num)]
        calc n < 10 ^ (f + 1) := hlt
          _ = 10 ^ f * 10 := by ring
      rw [ih (n / 10) _ (Nat.pos_of_ne_zero hq) h2]
      rw [Nat.digits_def' (by norm_num : (1:Nat) < 10) h0]
      simp

/-- The characters of Nat.repr n are the decimal digits of n, most
significant first. -/
theorem repr_data_eq (n : Nat) (h0 : 0 < n) :
    (Nat.repr n).data = ((Nat.digits 10 n).map Nat.digitChar).reverse := by
  unfold Nat.repr Nat.toDigits
  have hlt : n < 10 ^ (n + 1) := by
    have h1 := Nat.lt_pow_self (by norm_num : 1 < 10) n
    have h2 : (10:Nat) ^ n ≤ 10 ^ (n + 1) :=
      Nat.pow_le_pow_right (by norm_num) (Nat.le_succ n)
    omega
  rw [toDigitsCore_eq_digits (n + 1) n [] h0 hlt]
  simp [List.asString]

/-- For n between 1 and 9999 the decimal string of n is one character
of 1-9 followed by at most three characters of 0-9. -/
theorem numTail_repr (n : Nat) (h1 : 0 < n) (h2 : n ≤ 9999) :
    numTail (Nat.repr n).data = true := by
  rw [repr_data_eq n h1]
  have hne : Nat.digits 10 n ≠ [] :=
    Nat.digits_ne_nil_iff_ne_zero.mpr (by omega)
  have hlen : (Nat.digits 10 n).length ≤ 4 := by
    rw [Nat.digits_len 10 n (by norm_num) (by omega)]
    have hlog : Nat.log 10 n < 4 :=
      Nat.log_lt_of_lt_pow (by omega)
        (by rw [show (10:Nat) ^ 4 = 10000 from by norm_num]; omega)
    omega
  rw [← List.map_reverse]
  obtain ⟨d0, e, he⟩ : ∃ d0 e, (Nat.digits 10 n).reverse = d0 :: e := by
    rcases hrev : (Nat.digits 10 n).reverse with _ | ⟨d0, e⟩
    · rw [List.reverse_eq_nil_iff] at hrev; exact absurd hrev hne
    · exact ⟨d0, e, rfl⟩
  rw [he]
  have hd0last : (Nat.digits 10 n).getLast hne = d0 := by
    rw [List.getLast_eq_head_reverse]
    simp [he]
  have hd0mem : d0 ∈ Nat.digits 10 n := by
    rw [← hd0last]; exact List.getLast_mem hne
  have hd0lt : d0 < 10 := Nat.digits_lt_base (by norm_num) hd0mem
  have hd0ne : d0 ≠ 0 := by
    rw [← hd0last]
    exact Nat.getLast_digit_ne_zero 10 (by omega)
  have helen : e.length ≤ 3 := by
    have : (Nat.digits 10 n).reverse.length = (Nat.digits 10 n).length :=
      List.length_reverse _
    rw [he] at this
    simp at this
    omega
  have hemem : ∀ d ∈ e, d < 10 := by
    intro d hd
    have : d ∈ (Nat.digits 10 n).reverse := by rw [he]; exact List.mem_cons_of_mem _ hd
    exact Nat.digits_lt_base (by norm_num) (List.mem_reverse.mp this)
  simp only [List.map_cons, numTail, Bool.and_eq_true, decide_eq_true_eq]
  refine ⟨⟨digitChar_19 d0 hd0lt hd0ne, by simpa using helen⟩, ?_⟩
  rw [List.all_eq_true]
  intro c hc
  obtain ⟨d, hd, rfl⟩ := List.mem_map.mp hc
  exact digitChar_09 d (hemem d hd)

/-- For n between 1 and 10000 the decimal string of n matches the
amended numeric tail. -/
theorem numTailAmended_repr (n : Nat) (h1 : 1 ≤ n) (h2 : n ≤ 10000) :
    numTailAmended (Nat.repr n).data = true := by
  by_cases hn : n = 10000
  · subst hn; decide
  · have h := numTail_repr n h1 (by omega)
    simp [numTailAmended, h]

end Loadtest

namespace Loadtest

/-- Any random.choice over string.ascii_uppercase is a character of
class A-Z. -/
theorem upper_getD (k : Nat) :
    isUpperAZ (ascii_uppercase.getD (k % 26) 'A') = true := by
  have h26 : k % 26 < 26 := Nat.mod_lt _ (by norm_num)
  have hball : ∀ m, m < 26 → isUpperAZ (ascii_uppercase.getD m 'A') = true := by decide
  exact hball _ h26

/-- The drawn number of randint(1, 10000) as a natural number. -/
theorem randintP_one_10000 (g : RNG) :
    (randintP 1 10000 g).1 = ((1 + g.stream g.pos % 10000 : Nat) : Int) := by
  simp only [randintP, RNG.next]
  omega

/-- Printing a nonnegative integer is printing its natural value. -/
theorem toString_int_ofNat (m : Nat) : toString ((m : Nat) : Int) = Nat.repr m := rfl

/-- Every string built by the formula branch matches the amended
pattern. -/
theorem formulaValue_matches (g : RNG) :
    matchesFormulaPatternAmended (formulaValue g).1 = true := by
  have hval : (formulaValue g).1 =
      String.mk ['='] ++ String.mk [ascii_uppercase.getD (g.stream g.pos % 26) 'A']
        ++ toString ((randintP 1 10000 ⟨g.stream, g.pos + 1⟩).1) := rfl
  rw [hval, randintP_one_10000, toString_int_ofNat]
  show (('=' == '=') && isUpperAZ (ascii_uppercase.getD (g.stream g.pos % 26) 'A')
    && numTailAmended (Nat.repr (1 + g.stream (⟨g.stream, g.pos + 1⟩ : RNG).pos % 10000)).data) = true
  rw [upper_getD]
  rw [numTailAmended_repr _ (by omega) (by
    have := Nat.mod_lt (g.stream (⟨g.stream, g.pos + 1⟩ : RNG).pos) (show 0 < 10000 by norm_num)
    omega)]
  rfl

/-- When the drawn choice selects formula, generate_random_value runs
the formula branch on the advanced random state. -/
theorem gen_formula_branch (g : RNG) (h : g.next.1 % 3 = 2) :
    generate_random_value g = formulaValue g.next.2 := by
  unfold generate_random_value
  dsimp only [RNG.next] at h ⊢
  rw [h]

end Loadtest

namespace Loadtest

/-- C3 (amended): every generated raw_value of the formula kind is an
equals sign, an uppercase letter A-Z and the decimal form of an n in
[1, 10000]: it matches the claimed pattern extended with the five-digit
string 10000, which randint(1, 10000) can draw. -/
theorem claim_C3_amended (g : RNG) (h : g.next.1 % 3 = 2) :
    matchesFormulaPatternAmended (generate_random_value g).1 = true := by
  rw [gen_formula_branch g h]
  exact formulaValue_matches g.next.2

/-- Witness for C3: the formula value drawn from a concrete stream
matches the amended pattern. -/
theorem claim_C3_witness :
    matchesFormulaPatternAmended (generate_random_value gFormulaMax).1 = true :=
  claim_C3_amended gFormulaMax (by decide)

/-- Counterexample to C3 as stated: a stream reaching the formula
branch with letter A and drawn number 10000 generates =A10000, whose
five digits do not match the claimed at-most-four-digit pattern. -/
theorem claim_C3_counterexample :
    gFormulaMax.next.1 % 3 = 2 ∧
    (generate_random_value gFormulaMax).1 = "=A10000" ∧
    matchesFormulaPattern "=A10000" = false := by decide

end Loadtest

namespace Img2xls

/-- The resize height of the 1x1 scenario image at max_width 1 is 2:
the height is scaled by the factor 2 of the source. -/
theorem new_height_scenario : new_height img1x1 1 = 2 := by
  norm_num [new_height, width_percent, img1x1]
  decide

/-- The scenario posts: two cells, ids 0 and 26, both with the packed
value of FF 00 00 FF. -/
theorem scenario_posts :
    image_to_excel_posts (resizeConst (255, 0, 0, 255)) img1x1 1 0 =
      [Loadtest.make_cell 0 "" (-16776961), Loadtest.make_cell 26 "" (-16776961)] := by
  simp only [image_to_excel_posts]
  rw [new_height_scenario]
  decide

/-- The packed value of the source equals the big-endian concatenation
of the bytes in the order A,B,G,R, signed: the native little-endian
read reverses the spec byte order. -/
theorem rgba32_eq_be_reversed (r g b a : Nat) :
    rgba_32 r g b a = spec_rgba_be a b g r := by
  simp only [rgba_32, spec_rgba_be, pack4B, leNat]
  congr 1
  ring

/-- Counterexample to C2 as stated: for the pixel (255, 0, 0, 0) the
code packs 255 while the big-endian reading of R,G,B,A is -16777216,
and the 1x1 scenario produces two POSTs, not one. -/
theorem claim_C2_counterexample :
    rgba_32 255 0 0 0 = 255 ∧ spec_rgba_be 255 0 0 0 = -16777216 ∧
    ((255 : Int) ≠ -16777216) ∧
    (image_to_excel_posts (resizeConst (255, 0, 0, 255)) img1x1 1 0).length = 2 ∧
    ((2 : Nat) ≠ 1) := by
  refine ⟨by decide, by decide, by decide, ?_, by decide⟩
  rw [scenario_posts]
  decide

/-- C2 (amended): the background equals the four RGBA bytes in memory
order read as a native-order (little-endian) signed 32-bit integer,
the big-endian concatenation of A,B,G,R; the 1x1 scenario with
max_width 1 and row_start 0 produces exactly two POSTs, ids 0 and 26,
each with background the signed 32-bit reinterpretation of bytes
FF 00 00 FF, that is -16776961. -/
theorem claim_C2_amended :
    (∀ r g b a : Nat, rgba_32 r g b a = spec_rgba_be a b g r) ∧
    image_to_excel_posts (resizeConst (255, 0, 0, 255)) img1x1 1 0 =
      [Loadtest.make_cell 0 "" (rgba_32 255 0 0 255),
       Loadtest.make_cell 26 "" (rgba_32 255 0 0 255)] ∧
    rgba_32 255 0 0 255 = spec_rgba_be 255 0 0 255 ∧
    spec_rgba_be 255 0 0 255 = -16776961 := by
  refine ⟨rgba32_eq_be_reversed, ?_, by decide, by decide⟩
  rw [scenario_posts]
  decide

end Img2xls
